import Mathlib

/-!
Shallow embedding of the Ferro session-orchestrated resolution pipeline
(src/ferro/src/iso_api.rs, src/ferro/src/types.rs, src/ferro/src/utils.rs).

Network effects are made explicit: every vendor interaction is driven by an
`Env` of response oracles, and every run additionally returns the ordered list
of `Event`s it performed (network calls plus session-identifier generation),
so that ordering and reuse properties of the source can be stated and proved.
UUID generation (`uuid::Uuid::new_v4`) is modelled as an injective function of
a freshness counter threaded through the pipeline state, matching the only
property the source relies on (freshly generated identifiers are distinct).
Rust `HashMap` values keyed by language name are modelled as association
lists in insertion order; all properties proved about them are independent of
Rust `HashMap` iteration order.
-/

namespace Ferro

/-! ### String helpers

Rust `str::to_lowercase` / `str::contains` (substring) / case-insensitive
equality, modelled on the underlying character lists. -/

/-- Character list of a string, lowercased (models `str::to_lowercase`). -/
def lowerChars (s : String) : List Char := s.data.map Char.toLower

/-- `isPrefixB n l` is true when `n` is a prefix of `l`. -/
def isPrefixB : List Char → List Char → Bool
  | [], _ => true
  | _ :: _, [] => false
  | a :: as, b :: bs => a == b && isPrefixB as bs

/-- `containsAux needle hay` is true when `needle` occurs as a contiguous
sublist of `hay` (models Rust substring `contains`). -/
def containsAux (needle : List Char) : List Char → Bool
  | [] => isPrefixB needle []
  | c :: rest => isPrefixB needle (c :: rest) || containsAux needle rest

/-- Case-insensitive substring test: models
`hay.to_lowercase().contains(&needle.to_lowercase())`. -/
def ciContains (hay needle : String) : Bool :=
  containsAux (lowerChars needle) (lowerChars hay)

/-- Case-insensitive equality: models `a.to_lowercase() == b.to_lowercase()`. -/
def ciEq (a b : String) : Bool := lowerChars a == lowerChars b

/-! ### Data model (src/ferro/src/types.rs) -/

structure WindowsVersion where
  name : String
  page_type : String
  index : Nat
  deriving DecidableEq, Repr

structure WindowsRelease where
  name : String
  index : Nat
  deriving DecidableEq, Repr

structure WindowsEdition where
  name : String
  id : List Nat
  deriving DecidableEq, Repr

structure LanguageData where
  session_index : Nat
  sku_id : String
  deriving DecidableEq, Repr

structure WindowsLanguage where
  name : String
  display_name : String
  data : List LanguageData
  deriving DecidableEq, Repr

structure WindowsArchitecture where
  name : String
  url : String
  deriving DecidableEq, Repr

structure Sku where
  id : String
  language : String
  localized_language : String
  localized_product_display_name : String
  description : Option String
  product_display_name : Option String
  product_edition_name : Option String
  friendly_file_names : Option (List String)
  deriving DecidableEq, Repr

structure ProductDownloadOption where
  uri : String
  download_type : Nat
  deriving DecidableEq, Repr

structure ApiErrorEntry where
  error_type : Nat
  value : String
  deriving DecidableEq, Repr

/-- `ValidationContainer`; the source only inspects emptiness of `errors`
and debug-formats its first entry, so the opaque `serde_json::Value`
elements are modelled as their debug strings. -/
structure ValidationContainer where
  error_list : List String
  errors : List String
  deriving DecidableEq, Repr

structure MicrosoftApiResponse where
  skus : Option (List Sku)
  product_download_options : Option (List ProductDownloadOption)
  errors : Option (List ApiErrorEntry)
  validation_container : Option ValidationContainer
  tickets : Option String
  deriving DecidableEq, Repr

structure WindowsEditionData where
  name : String
  ids : List Nat
  deriving DecidableEq, Repr

structure WindowsReleaseData where
  name : String
  editions : List WindowsEditionData
  deriving DecidableEq, Repr

structure WindowsVersionData where
  name : String
  page_type : String
  releases : List WindowsReleaseData
  deriving DecidableEq, Repr

/-- Static catalog, exactly `get_windows_versions` of src/ferro/src/types.rs. -/
def get_windows_versions : List WindowsVersionData :=
  [ { name := "Windows 11", page_type := "windows11",
      releases :=
        [ { name := "24H2 (Build 26100.1742 - 2024.10)",
            editions :=
              [ { name := "Windows 11 Home/Pro/Edu", ids := [3113, 3131] },
                { name := "Windows 11 Home China ", ids := [3115, 3132] },
                { name := "Windows 11 Pro China ", ids := [3114, 3133] } ] } ] },
    { name := "Windows 10", page_type := "Windows10ISO",
      releases :=
        [ { name := "22H2 v1 (Build 19045.2965 - 2023.05)",
            editions :=
              [ { name := "Windows 10 Home/Pro/Edu", ids := [2618] },
                { name := "Windows 10 Home China ", ids := [2378] } ] } ] },
    { name := "UEFI Shell 2.2", page_type := "UEFI_SHELL 2.2",
      releases :=
        [ { name := "25H1 (edk2-stable202505)",
            editions := [ { name := "Release", ids := [0] },
                          { name := "Debug", ids := [1] } ] },
          { name := "24H2 (edk2-stable202411)",
            editions := [ { name := "Release", ids := [0] },
                          { name := "Debug", ids := [1] } ] },
          { name := "24H1 (edk2-stable202405)",
            editions := [ { name := "Release", ids := [0] },
                          { name := "Debug", ids := [1] } ] },
          { name := "23H2 (edk2-stable202311)",
            editions := [ { name := "Release", ids := [0] },
                          { name := "Debug", ids := [1] } ] },
          { name := "23H1 (edk2-stable202305)",
            editions := [ { name := "Release", ids := [0] },
                          { name := "Debug", ids := [1] } ] },
          { name := "22H2 (edk2-stable202211)",
            editions := [ { name := "Release", ids := [0] },
                          { name := "Debug", ids := [1] } ] },
          { name := "22H1 (edk2-stable202205)",
            editions := [ { name := "Release", ids := [0] },
                          { name := "Debug", ids := [1] } ] },
          { name := "21H2 (edk2-stable202108)",
            editions := [ { name := "Release", ids := [0] },
                          { name := "Debug", ids := [1] } ] },
          { name := "21H1 (edk2-stable202105)",
            editions := [ { name := "Release", ids := [0] },
                          { name := "Debug", ids := [1] } ] },
          { name := "20H2 (edk2-stable202011)",
            editions := [ { name := "Release", ids := [0] },
                          { name := "Debug", ids := [1] } ] } ] },
    { name := "UEFI Shell 2.0", page_type := "UEFI_SHELL 2.0",
      releases :=
        [ { name := "4.632 [20100426]",
            editions := [ { name := "Release", ids := [0] } ] } ] } ]

/-- `utils::get_arch_from_type`. -/
def get_arch_from_type : Nat → String
  | 0 => "x86"
  | 1 => "x64"
  | 2 => "ARM64"
  | _ => "Unknown"

/-! ### Error taxonomy

One constructor per `anyhow!` site reached by the embedded functions, carrying
the data the source interpolates into the message. -/

inductive Failure where
  | versionNotFound (name : String)
  | releaseNotFound (name : String)
  | editionNotFound (name : String)
  | languageNotFound (name : String)
  | architectureNotFound (name : String)
  | sessionIdNotFound (index : Nat)
  | whitelistFailed (msg : String)
  | skuNetwork (msg : String)
  | skuEmptyBody (status : Nat)
  | skuParse
  | linksNetwork (msg : String)
  | linksParse
  | validationApiError (first : String)
  | legacyApiError (value : String)
  | blocked (fullMsg : String)
  | retryExhausted
  deriving DecidableEq, Repr

/-! ### Pure catalog lookups (IsoApi::get_releases, IsoApi::get_editions)

These functions perform no network interaction in the source (they only read
the static catalog), hence they are embedded as pure total functions. -/

/-- `IsoApi::get_releases`, lines 64-80 of iso_api.rs. -/
def get_releases (version_name : String) : Except Failure (List WindowsRelease) :=
  match get_windows_versions.find? (fun v => ciContains v.name version_name) with
  | none => .error (.versionNotFound version_name)
  | some version_data =>
      .ok (version_data.releases.enum.map (fun p => { name := p.2.name, index := p.1 }))

/-- `IsoApi::get_editions`, lines 102-127 of iso_api.rs. -/
def get_editions (version_name release_name : String) :
    Except Failure (List WindowsEdition) :=
  match get_windows_versions.find? (fun v => ciContains v.name version_name) with
  | none => .error (.versionNotFound version_name)
  | some version_data =>
      match version_data.releases.find? (fun r => ciContains r.name release_name) with
      | none => .error (.releaseNotFound release_name)
      | some release_data =>
          .ok (release_data.editions.map (fun e => { name := e.name, id := e.ids }))

/-! ### Effect model

`Event` records, in order, the observable steps of a run: session-identifier
generation/storage (`genSession`, a state event, not a network call) and the
vendor network calls the source issues. `Env` supplies the oracle responses. -/

inductive Event where
  | genSession (index : Nat) (sessionId : String)
  | whitelistCall (sessionId : String)
  | skuCall (editionId : Nat) (sessionId : String)
  | linksCall (skuId : String) (sessionId : String)
  | localeProbeCall (locale : String)
  | uefiXmlCall
  deriving DecidableEq, Repr

/-- Outcome of an HTTP GET whose body is parsed as vendor JSON:
network/transport error, empty body, JSON parse failure, or a parsed
`MicrosoftApiResponse`. -/
inductive HttpJsonResult where
  | netErr (msg : String)
  | emptyBody (status : Nat)
  | parseErr
  | ok (resp : MicrosoftApiResponse)
  deriving DecidableEq, Repr

/-- Outcome of the locale landing-page probe (`check_locale`): HTTP success
status, HTTP non-success status, or transport error. -/
inductive ProbeResult where
  | success
  | httpFail
  | netErr
  deriving DecidableEq, Repr

/-- Outcome of the UEFI-Shell `Version.xml` fetch. -/
inductive XmlFetch where
  | netErr
  | httpFail
  | bodyErr
  | ok (xml : String)
  deriving DecidableEq, Repr

/-- Response oracles for one run. `banMessage` is the string computed by
`get_code_715_123130_message` (lines 579-615): that chain depends only on the
environment (landing page HTML) and never on the response being classified,
so it is supplied abstractly; the session id is appended to it afterwards by
`get_download_links` (line 480). -/
structure Env where
  systemLocale : String
  whitelist : String → Except String Unit
  sku : Nat → String → HttpJsonResult
  links : String → String → HttpJsonResult
  localeProbe : String → ProbeResult
  uefiXml : XmlFetch
  banMessage : String

/-- Mutable fields of `IsoApi` used by the pipeline: the branch-index →
session-id map (`session_ids : HashMap<usize, String>`, modelled as a
function), the negotiated `query_locale`, and the freshness counter backing
`Uuid::new_v4()`. -/
structure IsoApiState where
  sessionIds : Nat → Option String
  queryLocale : String
  nextUuid : Nat

/-- Models `Uuid::new_v4().to_string()`: the n-th generated identifier.
Injective (fresh identifiers are pairwise distinct), which is the only
property of v4 UUIDs the source relies on. -/
def genUuid (n : Nat) : String := String.mk (List.replicate (n + 1) 'u')

/-! ### Response classification (error containers)

`try_get_sku_information` (lines 342-421) and `get_download_links`
(lines 423-487) check, in order: transport failure, (SKU only) empty body,
parse failure, non-empty `ValidationContainer.Errors`, then the legacy
`Errors` list. Only `get_download_links` special-cases the ban sentinel
(`error_type == 9`). -/

/-- Legacy `Errors` check of `try_get_sku_information` (lines 408-413):
any non-empty list is an API error carrying the first entry's value. -/
def skuLegacy (resp : MicrosoftApiResponse) : Except Failure MicrosoftApiResponse :=
  match resp.errors with
  | some (err :: _) => .error (.legacyApiError err.value)
  | _ => .ok resp

/-- `try_get_sku_information` given the HTTP outcome (lines 357-421). -/
def classify_sku (r : HttpJsonResult) : Except Failure MicrosoftApiResponse :=
  match r with
  | .netErr m => .error (.skuNetwork m)
  | .emptyBody status => .error (.skuEmptyBody status)
  | .parseErr => .error .skuParse
  | .ok resp =>
      match resp.validation_container with
      | some vc =>
          if vc.errors.isEmpty then skuLegacy resp
          else .error (.validationApiError (vc.errors.headD ""))
      | none => skuLegacy resp

/-- Legacy `Errors` check of `get_download_links` (lines 476-484): the ban
sentinel (type 9) yields the ban message with the session id appended after
a space, per the format call at line 480; any other first entry yields
an API error carrying its value. -/
def linksLegacy (e : Env) (sessionId : String) (resp : MicrosoftApiResponse) :
    Except Failure MicrosoftApiResponse :=
  match resp.errors with
  | some (err :: _) =>
      if err.error_type == 9 then
        .error (.blocked (e.banMessage ++ " " ++ sessionId))
      else .error (.legacyApiError err.value)
  | _ => .ok resp

/-- `get_download_links` given the HTTP outcome (lines 437-487). This path
has no separate empty-body check: an empty body fails JSON parsing. -/
def classify_links (e : Env) (sessionId : String) (r : HttpJsonResult) :
    Except Failure MicrosoftApiResponse :=
  match r with
  | .netErr m => .error (.linksNetwork m)
  | .emptyBody _ => .error .linksParse
  | .parseErr => .error .linksParse
  | .ok resp =>
      match resp.validation_container with
      | some vc =>
          if vc.errors.isEmpty then linksLegacy e sessionId resp
          else .error (.validationApiError (vc.errors.headD ""))
      | none => linksLegacy e sessionId resp

/-! ### Language discovery (IsoApi::get_languages, lines 129-195) -/

/-- The fixed record returned on the firmware-shell (UEFI) short-circuit
(lines 136-145). -/
def uefiFixedLanguages : List WindowsLanguage :=
  [ { name := "en-us", display_name := "English (US)",
      data := [ { session_index := 0, sku_id := "1" } ] } ]

/-- One step of the `languages` HashMap accumulation (lines 174-187):
`entry(language).or_insert_with(record).data.push((session_index, sku_id))`,
on the insertion-ordered association-list model. -/
def addSku (langs : List WindowsLanguage) (session_index : Nat) (sku : Sku) :
    List WindowsLanguage :=
  if langs.any (fun l => l.name == sku.language) then
    langs.map (fun l =>
      if l.name == sku.language then
        { l with data := l.data ++ [ { session_index := session_index, sku_id := sku.id } ] }
      else l)
  else
    langs ++ [ { name := sku.language, display_name := sku.localized_language,
                 data := [ { session_index := session_index, sku_id := sku.id } ] } ]

/-- All Skus of one branch folded into the accumulator. -/
def addSkus (langs : List WindowsLanguage) (session_index : Nat) (skus : List Sku) :
    List WindowsLanguage :=
  skus.foldl (fun acc s => addSku acc session_index s) langs

/-- The per-branch loop of `get_languages` (lines 155-189): for each edition
identifier, generate and store a fresh session id, whitelist it (failure
propagates via the source's `?` operator), then call the SKU endpoint and
accumulate the returned Skus. Pacing sleeps are not observable events. -/
def languagesLoop (e : Env) (st : IsoApiState) (ids : List Nat) (sessionIndex : Nat)
    (langs : List WindowsLanguage) :
    Except Failure (List WindowsLanguage) × IsoApiState × List Event :=
  match ids with
  | [] => (.ok langs, st, [])
  | editionId :: rest =>
      let sessionId := genUuid st.nextUuid
      let st1 : IsoApiState :=
        { st with
          nextUuid := st.nextUuid + 1,
          sessionIds := fun i => if i = sessionIndex then some sessionId else st.sessionIds i }
      match e.whitelist sessionId with
      | .error m =>
          (.error (.whitelistFailed ("Session whitelisting failed: " ++ m)), st1,
           [.genSession sessionIndex sessionId, .whitelistCall sessionId])
      | .ok _ =>
          match classify_sku (e.sku editionId sessionId) with
          | .error f =>
              (.error f, st1,
               [.genSession sessionIndex sessionId, .whitelistCall sessionId,
                .skuCall editionId sessionId])
          | .ok resp =>
              let langs1 :=
                match resp.skus with
                | none => langs
                | some skus => addSkus langs sessionIndex skus
              let out := languagesLoop e st1 rest (sessionIndex + 1) langs1
              (out.1, out.2.1,
               .genSession sessionIndex sessionId :: .whitelistCall sessionId ::
               .skuCall editionId sessionId :: out.2.2)

/-- `IsoApi::get_languages` (lines 129-195). -/
def get_languages (e : Env) (st : IsoApiState)
    (version_name release_name edition_name : String) :
    Except Failure (List WindowsLanguage) × IsoApiState × List Event :=
  if ciContains version_name "uefi" then (.ok uefiFixedLanguages, st, [])
  else
    match get_editions version_name release_name with
    | .error f => (.error f, st, [])
    | .ok editions =>
        match editions.find? (fun ed => ciContains ed.name edition_name) with
        | none => (.error (.editionNotFound edition_name), st, [])
        | some edition => languagesLoop e st edition.id 0 []

/-! ### UEFI Shell fork (IsoApi::get_uefi_shell_architectures, lines 489-546) -/

/-- `release_name.split(' ').next().unwrap_or("25H1")`. -/
def uefiTag (release_name : String) : String := (release_name.splitOn " ").headD "25H1"

/-- `version_name.split(' ').next_back().unwrap_or("2.2")`. -/
def uefiShellVersion (version_name : String) : String :=
  (version_name.splitOn " ").getLastD "2.2"

/-- The release asset base URL (lines 499-502). -/
def uefiBaseUrl (release_name : String) : String :=
  "https://github.com/pbatard/UEFI-Shell/releases/download/" ++ uefiTag release_name

/-- The derived download link (lines 503-509): template substitution of the
release tag and shell version, with a RELEASE or DEBUG artifact chosen by
whether the edition name contains "release" case-insensitively. -/
def uefiShellLink (version_name release_name edition_name : String) : String :=
  let link_base :=
    uefiBaseUrl release_name ++ "/UEFI-Shell-" ++ uefiShellVersion version_name
      ++ "-" ++ uefiTag release_name
  if ciContains edition_name "release" then link_base ++ "-RELEASE.iso"
  else link_base ++ "-DEBUG.iso"

/-- Fuel-bounded scan for `parse_uefi_architectures` (lines 539-546): all
captures of the regex `<arch>([^<]+)</arch>`, left to right, non-overlapping.
Each step strictly shrinks the scanned list, so fuel = initial length never
runs out. -/
def parseArchsAux : Nat → List Char → List String
  | 0, _ => []
  | _ + 1, [] => []
  | fuel + 1, c :: rest =>
      if isPrefixB "<arch>".data (c :: rest) then
        let after := (c :: rest).drop 6
        let content := after.takeWhile (fun ch => ch != '<')
        let rem := after.drop content.length
        if !content.isEmpty && isPrefixB "</arch>".data rem then
          String.mk content :: parseArchsAux fuel (rem.drop 7)
        else parseArchsAux fuel rest
      else parseArchsAux fuel rest

/-- `IsoApi::parse_uefi_architectures`. -/
def parse_uefi_architectures (xml : String) : List String :=
  parseArchsAux xml.data.length xml.data

/-- `IsoApi::get_uefi_shell_architectures` (lines 489-537): derives the link
by template substitution, then best-effort enriches the architecture-name
list from `Version.xml`, falling back to the fixed default on any failure or
on an empty parse. -/
def get_uefi_shell_architectures (e : Env)
    (version_name release_name edition_name : String) :
    Except Failure (List WindowsArchitecture) × List Event :=
  let link := uefiShellLink version_name release_name edition_name
  match e.uefiXml with
  | .ok xml =>
      let archs := parse_uefi_architectures xml
      if !archs.isEmpty then
        (.ok [ { name := String.intercalate ", " archs, url := link } ], [.uefiXmlCall])
      else
        (.ok [ { name := "x64, ARM64, IA32", url := link } ], [.uefiXmlCall])
  | _ => (.ok [ { name := "x64, ARM64, IA32", url := link } ], [.uefiXmlCall])

/-! ### Architecture discovery (IsoApi::get_architectures, lines 197-263) -/

/-- The per-entry loop of `get_architectures` (lines 228-260): for each
`(session_index, sku_id)` entry of the selected language, look up the stored
session id (no new session is generated and no whitelisting happens here),
call the download-links endpoint, and collect `(architecture name, URI)`
pairs. -/
def archLoop (e : Env) (sd : Nat → Option String) (entries : List LanguageData)
    (acc : List WindowsArchitecture) :
    Except Failure (List WindowsArchitecture) × List Event :=
  match entries with
  | [] => (.ok acc, [])
  | en :: rest =>
      match sd en.session_index with
      | none => (.error (.sessionIdNotFound en.session_index), [])
      | some sessionId =>
          match classify_links e sessionId (e.links en.sku_id sessionId) with
          | .error f => (.error f, [.linksCall en.sku_id sessionId])
          | .ok resp =>
              let acc1 :=
                match resp.product_download_options with
                | none => acc
                | some opts =>
                    acc ++ opts.map (fun o =>
                      { name := get_arch_from_type o.download_type, url := o.uri })
              let out := archLoop e sd rest acc1
              (out.1, .linksCall en.sku_id sessionId :: out.2)

/-- `IsoApi::get_architectures` (lines 197-263). -/
def get_architectures (e : Env) (st : IsoApiState)
    (version_name release_name edition_name language_name : String) :
    Except Failure (List WindowsArchitecture) × IsoApiState × List Event :=
  if ciContains version_name "uefi" then
    let out := get_uefi_shell_architectures e version_name release_name edition_name
    (out.1, st, out.2)
  else
    match get_languages e st version_name release_name edition_name with
    | (.error f, st2, tr) => (.error f, st2, tr)
    | (.ok languages, st2, tr) =>
        match languages.find? (fun l =>
            ciContains l.name language_name || ciContains l.display_name language_name) with
        | none => (.error (.languageNotFound language_name), st2, tr)
        | some language =>
            let out := archLoop e st2.sessionIds language.data []
            (out.1, st2, tr ++ out.2)

/-- `IsoApi::get_download_url` (lines 265-283): exact case-insensitive
equality of the requested architecture name against the collected set. -/
def get_download_url (e : Env) (st : IsoApiState)
    (version_name release_name edition_name language_name architecture_name : String) :
    Except Failure String × IsoApiState × List Event :=
  match get_architectures e st version_name release_name edition_name language_name with
  | (.error f, st2, tr) => (.error f, st2, tr)
  | (.ok architectures, st2, tr) =>
      match architectures.find? (fun a => ciEq a.name architecture_name) with
      | none => (.error (.architectureNotFound architecture_name), st2, tr)
      | some a => (.ok a.url, st2, tr)

/-! ### Retry wrapper (IsoApi::get_sku_information_with_retry, lines 306-340)

Marked `#[allow(dead_code)]` in the source and not called by the pipeline.
The second component is the list of backoff sleep durations (seconds). -/

def retryFrom (op : Nat → Except Failure MicrosoftApiResponse) (retryCount : Nat) :
    Except Failure MicrosoftApiResponse × List Nat :=
  if _h : retryCount < 3 then
    match op retryCount with
    | .ok r => (.ok r, [])
    | .error f =>
        if retryCount < 3 - 1 then
          let out := retryFrom op (retryCount + 1)
          (out.1, 2 ^ (retryCount + 1) :: out.2)
        else (.error f, [])
  else (.error .retryExhausted, [])
termination_by 3 - retryCount

/-- `IsoApi::get_sku_information_with_retry` with the per-attempt outcome of
`try_get_sku_information` supplied as `op`. -/
def get_sku_information_with_retry (op : Nat → Except Failure MicrosoftApiResponse) :
    Except Failure MicrosoftApiResponse × List Nat :=
  retryFrom op 0

/-! ### Locale negotiation (lines 548-576) -/

/-- `IsoApi::check_locale` (lines 564-576): a transport error is swallowed
and reported as `false`; the function never returns an error. -/
def check_locale (e : Env) (locale : String) : Except Failure Bool × List Event :=
  match e.localeProbe locale with
  | .success => (.ok true, [.localeProbeCall locale])
  | .httpFail => (.ok false, [.localeProbeCall locale])
  | .netErr => (.ok false, [.localeProbeCall locale])

/-- `IsoApi::check_and_set_locale` (lines 548-562). -/
def check_and_set_locale (e : Env) (st : IsoApiState) :
    Except Failure IsoApiState × List Event :=
  match check_locale e e.systemLocale with
  | (.ok b, tr) =>
      (.ok { st with queryLocale := if b then e.systemLocale else "en-US" }, tr)
  | (.error f, tr) => (.error f, tr)

/-! ### Derived descriptions of successful runs

`branchEvents base k ids` is the event trace of a successful pass of the
`get_languages` branch loop started with freshness counter `base` at branch
index `k`; `branchPairs` is the flattened list of `(branch index, Sku)`
pairs it accumulates; `linksEvents` is the trace of a successful pass of the
`get_architectures` entry loop. -/

def branchEvents (base sessionIndex : Nat) : List Nat → List Event
  | [] => []
  | eid :: rest =>
      .genSession sessionIndex (genUuid base) :: .whitelistCall (genUuid base) ::
      .skuCall eid (genUuid base) :: branchEvents (base + 1) (sessionIndex + 1) rest

def branchPairs (e : Env) (base sessionIndex : Nat) : List Nat → List (Nat × Sku)
  | [] => []
  | eid :: rest =>
      (match classify_sku (e.sku eid (genUuid base)) with
       | .ok resp => (resp.skus.getD []).map (fun s => (sessionIndex, s))
       | .error _ => []) ++ branchPairs e (base + 1) (sessionIndex + 1) rest

def linksEvents (base : Nat) (entries : List LanguageData) : List Event :=
  entries.map (fun en => .linksCall en.sku_id (genUuid (base + en.session_index)))

/-- The language-grouping accumulation of `get_languages`, as a function of
the flattened `(branch index, Sku)` pairs. -/
def groupPairs (ps : List (Nat × Sku)) : List WindowsLanguage :=
  ps.foldl (fun acc p => addSku acc p.1 p.2) []

/-- Data list of the first record with the given language name. -/
def dataOf (L : String) (langs : List WindowsLanguage) : List LanguageData :=
  match langs.find? (fun l => l.name == L) with
  | some r => r.data
  | none => []

/-! ### Basic lemmas -/

theorem genUuid_inj (m n : Nat) (h : genUuid m = genUuid n) : m = n := by
  have hlen : (genUuid m).data.length = (genUuid n).data.length := by rw [h]
  simpa [genUuid] using hlen

theorem find?_map_name_preserving (f : WindowsLanguage → WindowsLanguage)
    (hf : ∀ l, (f l).name = l.name) (L : String) :
    ∀ langs : List WindowsLanguage,
      (langs.map f).find? (fun l => l.name == L) =
        (langs.find? (fun l => l.name == L)).map f := by
  intro langs
  induction langs with
  | nil => rfl
  | cons a l ih =>
      by_cases h : a.name = L
      · simp [List.find?_cons, hf, h]
      · have hb : (a.name == L) = false := by simp [h]
        simp only [List.map_cons, List.find?_cons, hf, hb]
        exact ih

theorem find?_append_lem (p : WindowsLanguage → Bool) :
    ∀ l1 l2 : List WindowsLanguage,
      (l1 ++ l2).find? p =
        (match l1.find? p with
         | some r => some r
         | none => l2.find? p) := by
  intro l1 l2
  induction l1 with
  | nil => rfl
  | cons a l ih =>
      by_cases h : p a
      · simp [List.find?_cons, h]
      · have hb : p a = false := by simpa using h
        simp only [List.cons_append, List.find?_cons, hb]
        exact ih

/-! ### Grouping lemmas: the HashMap accumulation of `get_languages` -/

theorem addSku_name_preserving (s : Sku) (i : Nat) (l : WindowsLanguage) :
    ((fun l =>
        if l.name == s.language then
          { l with data := l.data ++ [ { session_index := i, sku_id := s.id } ] }
        else l) l).name = l.name := by
  by_cases hl : l.name = s.language <;> simp [hl]

theorem dataOf_addSku (L : String) (langs : List WindowsLanguage) (i : Nat) (s : Sku) :
    dataOf L (addSku langs i s) =
      if s.language = L then
        dataOf L langs ++ [ { session_index := i, sku_id := s.id } ]
      else dataOf L langs := by
  simp only [addSku, dataOf]
  by_cases hany : langs.any (fun l => l.name == s.language) = true
  · rw [if_pos hany, find?_map_name_preserving _ (addSku_name_preserving s i) L]
    cases hf : langs.find? (fun l => l.name == L) with
    | none =>
        by_cases hLs : s.language = L
        · exfalso
          rw [List.any_eq_true] at hany
          obtain ⟨x, hx, hxn⟩ := hany
          have hnone := List.find?_eq_none.mp hf x hx
          rw [hLs] at hxn
          exact hnone hxn
        · simp [hLs]
    | some r =>
        have hrL : r.name = L := by simpa using List.find?_some hf
        by_cases hLs : s.language = L
        · rw [if_pos hLs]
          simp only [Option.map_some']
          rw [if_pos (by rw [hrL, hLs] ; exact beq_self_eq_true L)]
        · rw [if_neg hLs]
          simp only [Option.map_some']
          rw [if_neg (by simp [hrL] ; exact fun hc => hLs hc.symm)]
  · rw [if_neg hany, find?_append_lem]
    have hnone : langs.find? (fun l => l.name == s.language) = none := by
      rw [List.find?_eq_none]
      intro x hx hxp
      exact hany (List.any_eq_true.mpr ⟨x, hx, hxp⟩)
    by_cases hLs : s.language = L
    · rw [if_pos hLs]
      rw [hLs] at hnone
      rw [hnone]
      simp [List.find?_cons, hLs]
    · rw [if_neg hLs]
      cases hf : langs.find? (fun l => l.name == L) with
      | none => simp [List.find?_cons, hLs]
      | some r => rfl

theorem dataOf_foldl (L : String) :
    ∀ (ps : List (Nat × Sku)) (langs : List WindowsLanguage),
      dataOf L (ps.foldl (fun acc p => addSku acc p.1 p.2) langs) =
        dataOf L langs ++
          (ps.filter (fun p => p.2.language == L)).map
            (fun p => ({ session_index := p.1, sku_id := p.2.id } : LanguageData)) := by
  intro ps
  induction ps with
  | nil => intro langs ; simp
  | cons p ps ih =>
      intro langs
      simp only [List.foldl_cons]
      rw [ih, dataOf_addSku]
      by_cases hp : p.2.language = L
      · rw [if_pos hp]
        rw [List.filter_cons_of_pos (by simpa using hp)]
        simp
      · rw [if_neg hp]
        rw [List.filter_cons_of_neg (by simpa using hp)]

theorem namesNodup_addSku (langs : List WindowsLanguage) (i : Nat) (s : Sku)
    (h : (langs.map (fun l => l.name)).Nodup) :
    ((addSku langs i s).map (fun l => l.name)).Nodup := by
  simp only [addSku]
  by_cases hany : langs.any (fun l => l.name == s.language) = true
  · rw [if_pos hany]
    have : (langs.map (fun l =>
        if l.name == s.language then
          { l with data := l.data ++ [ { session_index := i, sku_id := s.id } ] }
        else l)).map (fun l => l.name) = langs.map (fun l => l.name) := by
      rw [List.map_map]
      exact List.map_congr_left (fun l _ => addSku_name_preserving s i l)
    rw [this]
    exact h
  · rw [if_neg hany]
    rw [List.map_append]
    rw [List.nodup_append]
    refine ⟨h, List.nodup_singleton _, ?_⟩
    intro x hx hx2
    simp only [List.map_singleton, List.mem_singleton] at hx2
    subst hx2
    obtain ⟨l, hl, hln⟩ := List.mem_map.mp hx
    exact hany (List.any_eq_true.mpr ⟨l, hl, by simp [hln]⟩)

theorem namesNodup_foldl :
    ∀ (ps : List (Nat × Sku)) (langs : List WindowsLanguage),
      (langs.map (fun l => l.name)).Nodup →
      ((ps.foldl (fun acc p => addSku acc p.1 p.2) langs).map (fun l => l.name)).Nodup := by
  intro ps
  induction ps with
  | nil => intro langs h ; exact h
  | cons p ps ih =>
      intro langs h
      simp only [List.foldl_cons]
      exact ih _ (namesNodup_addSku langs p.1 p.2 h)

theorem groupPairs_namesNodup (ps : List (Nat × Sku)) :
    ((groupPairs ps).map (fun l => l.name)).Nodup :=
  namesNodup_foldl ps [] (by simp)

theorem dataOf_of_mem_nodup :
    ∀ (langs : List WindowsLanguage) (r : WindowsLanguage),
      r ∈ langs → (langs.map (fun l => l.name)).Nodup →
      dataOf r.name langs = r.data := by
  intro langs
  induction langs with
  | nil => intro r hr ; cases hr
  | cons a l ih =>
      intro r hr hnd
      rcases List.mem_cons.mp hr with h | h
      · subst h
        simp [dataOf, List.find?_cons]
      · have hne : a.name ≠ r.name := by
          intro hc
          have : r.name ∈ l.map (fun l => l.name) := List.mem_map.mpr ⟨r, h, rfl⟩
          rw [← hc] at this
          exact (List.nodup_cons.mp (by simpa using hnd)).1 this
        have hb : (a.name == r.name) = false := by simp [hne]
        simp only [dataOf, List.find?_cons, hb]
        have := ih r h (List.nodup_cons.mp (by simpa using hnd)).2
        simpa [dataOf] using this

/-- Data of any record of `groupPairs ps` is exactly the ordered projection of
the pairs carrying its language. -/
theorem groupPairs_data_char (ps : List (Nat × Sku)) (r : WindowsLanguage)
    (hr : r ∈ groupPairs ps) :
    r.data = (ps.filter (fun p => p.2.language == r.name)).map
      (fun p => ({ session_index := p.1, sku_id := p.2.id } : LanguageData)) := by
  have h1 := dataOf_of_mem_nodup (groupPairs ps) r hr (groupPairs_namesNodup ps)
  have h2 := dataOf_foldl r.name ps []
  rw [groupPairs] at h1
  rw [h1] at h2
  simpa [dataOf] using h2

/-! ### Characterization of successful loop runs -/

theorem branchPairs_fst_bound (e : Env) :
    ∀ (ids : List Nat) (base k : Nat) (p : Nat × Sku),
      p ∈ branchPairs e base k ids → k ≤ p.1 ∧ p.1 < k + ids.length := by
  intro ids
  induction ids with
  | nil => intro base k p hp ; cases hp
  | cons eid rest ih =>
      intro base k p hp
      simp only [branchPairs, List.mem_append] at hp
      rcases hp with hp | hp
      · have hfst : p.1 = k := by
          cases hc : classify_sku (e.sku eid (genUuid base)) with
          | ok resp =>
              rw [hc] at hp
              obtain ⟨s, _, hs⟩ := List.mem_map.mp hp
              rw [← hs]
          | error f => rw [hc] at hp ; cases hp
        rw [hfst]
        simp only [List.length_cons]
        omega
      · have := ih (base + 1) (k + 1) p hp
        simp only [List.length_cons]
        omega

theorem languagesLoop_ok (e : Env) :
    ∀ (ids : List Nat) (st : IsoApiState) (k : Nat)
      (langs0 ls : List WindowsLanguage) (st2 : IsoApiState) (tr : List Event),
      languagesLoop e st ids k langs0 = (.ok ls, st2, tr) →
      tr = branchEvents st.nextUuid k ids ∧
      st2.nextUuid = st.nextUuid + ids.length ∧
      (∀ i, st2.sessionIds i =
        if k ≤ i ∧ i < k + ids.length then some (genUuid (st.nextUuid + (i - k)))
        else st.sessionIds i) ∧
      ls = (branchPairs e st.nextUuid k ids).foldl (fun acc p => addSku acc p.1 p.2) langs0 := by
  intro ids
  induction ids with
  | nil =>
      intro st k langs0 ls st2 tr h
      simp only [languagesLoop, Prod.mk.injEq, Except.ok.injEq] at h
      obtain ⟨hls, hst, htr⟩ := h
      subst hst
      subst hls
      refine ⟨htr.symm, by simp, ?_, by simp [branchPairs]⟩
      intro i
      rw [if_neg (by simp only [List.length_nil] ; omega)]
  | cons eid rest ih =>
      intro st k langs0 ls st2 tr h
      cases hw : e.whitelist (genUuid st.nextUuid) with
      | error m =>
          simp only [languagesLoop, hw, Prod.mk.injEq] at h
          exact absurd h.1 (by simp)
      | ok u =>
          cases hc : classify_sku (e.sku eid (genUuid st.nextUuid)) with
          | error f =>
              simp only [languagesLoop, hw, hc, Prod.mk.injEq] at h
              exact absurd h.1 (by simp)
          | ok resp =>
              simp only [languagesLoop, hw, hc, Prod.mk.injEq] at h
              obtain ⟨hres, hst, htr⟩ := h
              set st1 : IsoApiState :=
                { sessionIds := fun i =>
                    if i = k then some (genUuid st.nextUuid) else st.sessionIds i,
                  queryLocale := st.queryLocale,
                  nextUuid := st.nextUuid + 1 } with hst1
              set langs1 := (match resp.skus with
                | none => langs0
                | some skus => addSkus langs0 k skus) with hlangs1
              rcases hr : languagesLoop e st1 rest (k + 1) langs1 with ⟨res2, st3, tr3⟩
              rw [hr] at hres hst htr
              simp only at hres hst htr
              have hrec := ih st1 (k + 1) langs1 ls st2 tr3
                (by rw [hr, hres, hst])
              obtain ⟨ihtr, ihuid, ihsess, ihls⟩ := hrec
              have hnu1 : st1.nextUuid = st.nextUuid + 1 := rfl
              refine ⟨?_, ?_, ?_, ?_⟩
              · rw [← htr]
                simp only [branchEvents]
                rw [ihtr, hnu1]
              · rw [ihuid, hnu1]
                simp only [List.length_cons]
                omega
              · intro i
                rw [ihsess i, hnu1]
                by_cases h1 : k + 1 ≤ i ∧ i < k + 1 + rest.length
                · rw [if_pos h1, if_pos (by simp only [List.length_cons] ; omega)]
                  exact congrArg (fun n => some (genUuid n)) (by omega)
                · rw [if_neg h1]
                  show (if i = k then some (genUuid st.nextUuid) else st.sessionIds i) = _
                  by_cases h2 : i = k
                  · rw [if_pos h2, if_pos (by simp only [List.length_cons] ; omega)]
                    exact congrArg (fun n => some (genUuid n)) (by omega)
                  · rw [if_neg h2, if_neg (by simp only [List.length_cons] ; omega)]
              · rw [ihls, hnu1]
                simp only [branchPairs, hc, List.foldl_append]
                congr 1
                rw [hlangs1]
                cases hsk : resp.skus with
                | none => simp
                | some skus => simp [addSkus, List.foldl_map]

theorem archLoop_ok_trace (e : Env) (sd : Nat → Option String) (sidOf : Nat → String) :
    ∀ (entries : List LanguageData) (acc : List WindowsArchitecture)
      (res : Except Failure (List WindowsArchitecture)) (tr : List Event),
      (∀ en ∈ entries, sd en.session_index = some (sidOf en.session_index)) →
      archLoop e sd entries acc = (res, tr) →
      (∃ archs, res = .ok archs) →
      tr = entries.map (fun en => .linksCall en.sku_id (sidOf en.session_index)) := by
  intro entries
  induction entries with
  | nil =>
      intro acc res tr _ h _
      simp only [archLoop, Prod.mk.injEq] at h
      exact h.2.symm
  | cons en rest ih =>
      intro acc res tr hsd h hok
      have hen := hsd en (by simp)
      cases hlk : classify_links e (sidOf en.session_index)
          (e.links en.sku_id (sidOf en.session_index)) with
      | error f =>
          simp only [archLoop, hen, hlk, Prod.mk.injEq] at h
          obtain ⟨archs, harchs⟩ := hok
          rw [harchs] at h
          exact absurd h.1 (by simp)
      | ok resp =>
          simp only [archLoop, hen, hlk, Prod.mk.injEq] at h
          set acc1 := (match resp.product_download_options with
            | none => acc
            | some opts =>
                acc ++ opts.map (fun (o : ProductDownloadOption) =>
                  ({ name := get_arch_from_type o.download_type,
                     url := o.uri } : WindowsArchitecture))) with hacc1
          obtain ⟨h1, h2⟩ := h
          have hrec := ih acc1 (archLoop e sd rest acc1).1 (archLoop e sd rest acc1).2
            (fun x hx => hsd x (by simp [hx])) rfl
            (by
              obtain ⟨archs, harchs⟩ := hok
              exact ⟨archs, by rw [h1, harchs]⟩)
          rw [← h2, hrec]
          simp

/-- Decomposition of a successful OS-path `get_languages` run into the
catalog lookups and the branch loop. -/
theorem get_languages_ok_decomp (e : Env) (st : IsoApiState)
    (v r ed : String) (ls : List WindowsLanguage) (st2 : IsoApiState) (tr : List Event)
    (hu : ciContains v "uefi" = false)
    (h : get_languages e st v r ed = (.ok ls, st2, tr)) :
    ∃ eds edn, get_editions v r = .ok eds ∧
      eds.find? (fun x => ciContains x.name ed) = some edn ∧
      languagesLoop e st edn.id 0 [] = (.ok ls, st2, tr) := by
  rw [get_languages, if_neg (by simp [hu])] at h
  cases hed : get_editions v r with
  | error f =>
      simp only [hed, Prod.mk.injEq] at h
      exact absurd h.1 (by simp)
  | ok eds =>
      simp only [hed] at h
      cases hfind : eds.find? (fun x => ciContains x.name ed) with
      | none =>
          simp only [hfind, Prod.mk.injEq] at h
          exact absurd h.1 (by simp)
      | some edn =>
          simp only [hfind] at h
          exact ⟨eds, edn, rfl, hfind, h⟩

/-! ### Event predicates and concrete fixtures for witnesses -/

def isSkuCallEv : Event → Bool
  | .skuCall _ _ => true
  | _ => false

def isLinksCallEv : Event → Bool
  | .linksCall _ _ => true
  | _ => false

def isGenSessionEv : Event → Bool
  | .genSession _ _ => true
  | _ => false

/-- A well-formed SKU response carrying one English Sku whose id records the
queried edition id. -/
def respSkuW (eid : Nat) : MicrosoftApiResponse :=
  { skus := some [ { id := Nat.repr eid, language := "English",
                     localized_language := "English (US)",
                     localized_product_display_name := "Windows 11",
                     description := none, product_display_name := none,
                     product_edition_name := none, friendly_file_names := none } ],
    product_download_options := none, errors := none,
    validation_container := none, tickets := none }

/-- A well-formed download-links response with one x64 option. -/
def respLinksW : MicrosoftApiResponse :=
  { skus := none,
    product_download_options :=
      some [ { uri := "https://example/win11.iso", download_type := 1 } ],
    errors := none, validation_container := none, tickets := none }

/-- A healthy vendor environment. -/
def envW : Env :=
  { systemLocale := "en-US",
    whitelist := fun _ => .ok (),
    sku := fun eid _ => .ok (respSkuW eid),
    links := fun _ _ => .ok respLinksW,
    localeProbe := fun _ => .success,
    uefiXml := .netErr,
    banMessage := "BAN" }

/-- Fresh pipeline state (as after `IsoApi::new`). -/
def st0 : IsoApiState :=
  { sessionIds := fun _ => none, queryLocale := "en-US", nextUuid := 0 }

/-! ### C8 — locale negotiation -/

/-- C8: locale negotiation probes the vendor landing page for the system
locale exactly once (the trace is exactly one probe of the system locale);
the system locale is adopted precisely when the probe reports an HTTP
success status, and on a non-success status or a transport error the fixed
default "en-US" is adopted; the result is always `ok` (the probe failure is
never propagated as an error), and there is no retry. -/
theorem locale_negotiation_single_probe (e : Env) (st : IsoApiState) :
    check_and_set_locale e st =
      (.ok { st with queryLocale :=
          match e.localeProbe e.systemLocale with
          | .success => e.systemLocale
          | .httpFail => "en-US"
          | .netErr => "en-US" },
       [.localeProbeCall e.systemLocale]) := by
  cases hp : e.localeProbe e.systemLocale <;>
    simp [check_and_set_locale, check_locale, hp]

/-! ### C6 — catalog lookups are total, case-insensitive substring matches -/

/-- C6: version, release and edition lookups against the static catalog are
case-insensitive substring matches on the entry name, embedded as pure total
functions (no network event, no panic); an input matching zero entries
yields the NotFound-style error carrying the unmatched fragment. -/
theorem catalog_lookup_notfound (v r ed : String) (e : Env) (st : IsoApiState) :
    ((∀ vd ∈ get_windows_versions, ciContains vd.name v = false) →
       get_releases v = .error (.versionNotFound v) ∧
       get_editions v r = .error (.versionNotFound v)) ∧
    (∀ vd, get_windows_versions.find? (fun x => ciContains x.name v) = some vd →
       (∀ rd ∈ vd.releases, ciContains rd.name r = false) →
       get_editions v r = .error (.releaseNotFound r)) ∧
    (∀ eds, ciContains v "uefi" = false → get_editions v r = .ok eds →
       (∀ x ∈ eds, ciContains x.name ed = false) →
       get_languages e st v r ed = (.error (.editionNotFound ed), st, [])) := by
  refine ⟨?_, ?_, ?_⟩
  · intro hall
    have hnone : get_windows_versions.find? (fun x => ciContains x.name v) = none :=
      List.find?_eq_none.mpr (fun x hx => by simp [hall x hx])
    exact ⟨by simp only [get_releases, hnone], by simp only [get_editions, hnone]⟩
  · intro vd hfind hall
    have hnone : vd.releases.find? (fun x => ciContains x.name r) = none :=
      List.find?_eq_none.mpr (fun x hx => by simp [hall x hx])
    simp only [get_editions, hfind, hnone]
  · intro eds hu heds hall
    have hnone : eds.find? (fun x => ciContains x.name ed) = none :=
      List.find?_eq_none.mpr (fun x hx => by simp [hall x hx])
    rw [get_languages, if_neg (by simp [hu])]
    simp only [heds, hnone]

/-- Witness for C6 at concrete unmatched fragments. -/
theorem catalog_lookup_notfound_witness :
    get_releases "Windows 95" = .error (.versionNotFound "Windows 95") ∧
    get_editions "Windows 11" "zzz" = .error (.releaseNotFound "zzz") ∧
    get_languages envW st0 "Windows 11" "24H2" "Ultra" =
      (.error (.editionNotFound "Ultra"), st0, []) := by
  refine ⟨((catalog_lookup_notfound "Windows 95" "zzz" "x" envW st0).1 (by decide)).1,
          (catalog_lookup_notfound "Windows 11" "zzz" "x" envW st0).2.1
            { name := "Windows 11", page_type := "windows11",
              releases :=
                [ { name := "24H2 (Build 26100.1742 - 2024.10)",
                    editions :=
                      [ { name := "Windows 11 Home/Pro/Edu", ids := [3113, 3131] },
                        { name := "Windows 11 Home China ", ids := [3115, 3132] },
                        { name := "Windows 11 Pro China ", ids := [3114, 3133] } ] } ] }
            (by decide) (by decide),
          (catalog_lookup_notfound "Windows 11" "24H2" "Ultra" envW st0).2.2
            [ { name := "Windows 11 Home/Pro/Edu", id := [3113, 3131] },
              { name := "Windows 11 Home China ", id := [3115, 3132] },
              { name := "Windows 11 Pro China ", id := [3114, 3133] } ]
            (by decide) rfl (by decide)⟩

/-! ### C7 — final architecture selection is exact case-insensitive equality -/

/-- C7: the final download-URL stage selects an architecture by exact
case-insensitive equality (`a.name.to_lowercase() == request.to_lowercase()`,
not substring) against the collected set, returning the first such entry's
URL; when no collected name equals the request it returns the
NotFound-style error carrying the requested architecture name. -/
theorem download_url_exact_ci_match (e : Env) (st : IsoApiState)
    (v r ed lang arch : String)
    (archs : List WindowsArchitecture) (st2 : IsoApiState) (tr : List Event)
    (h : get_architectures e st v r ed lang = (.ok archs, st2, tr)) :
    (∀ a, archs.find? (fun a => ciEq a.name arch) = some a →
       get_download_url e st v r ed lang arch = (.ok a.url, st2, tr)) ∧
    ((∀ a ∈ archs, ciEq a.name arch = false) →
       get_download_url e st v r ed lang arch =
         (.error (.architectureNotFound arch), st2, tr)) := by
  constructor
  · intro a hfind
    simp only [get_download_url, h, hfind]
  · intro hall
    have hnone : archs.find? (fun a => ciEq a.name arch) = none :=
      List.find?_eq_none.mpr (fun x hx => by simp [hall x hx])
    simp only [get_download_url, h, hnone]

/-- Witness for C7: the collected set contains only "x64" entries, so the
request "ARM" (a substring of the name "ARM64" of no collected entry here,
and in particular not ci-equal to any collected name) yields NotFound
naming "ARM". -/
theorem download_url_exact_ci_match_witness :
    ∃ st2 tr,
      get_download_url envW st0 "Windows 11" "24H2" "Home" "English" "ARM" =
        (.error (.architectureNotFound "ARM"), st2, tr) :=
  ⟨_, _, (download_url_exact_ci_match envW st0 "Windows 11" "24H2" "Home" "English"
      "ARM" _ _ _ rfl).2 (by decide)⟩

/-! ### C5 — firmware-shell (UEFI) fork -/

/-- C5: when the version name contains the firmware-shell marker token
"uefi" (case-insensitively), language discovery performs no event at all and
short-circuits to the single fixed English record, and architecture
discovery performs only the metadata-document fetch (no SKU-information
call, no download-links call, no session creation or whitelisting); every
returned architecture's URL is the template substitution
`<base>/<tag>/UEFI-Shell-<last token of version>-<first token of release>`
with a `-RELEASE.iso` artifact when the edition name contains "release"
case-insensitively and `-DEBUG.iso` otherwise. -/
theorem uefi_fork_no_vendor_calls (e : Env) (st : IsoApiState)
    (v r ed lang : String) (hu : ciContains v "uefi" = true) :
    get_languages e st v r ed = (.ok uefiFixedLanguages, st, []) ∧
    (∃ archs, get_architectures e st v r ed lang = (.ok archs, st, [.uefiXmlCall]) ∧
      archs ≠ [] ∧
      (∀ a ∈ archs, a.url = uefiShellLink v r ed)) ∧
    ((get_architectures e st v r ed lang).2.2.all (fun ev =>
        !isSkuCallEv ev && !isLinksCallEv ev && !isGenSessionEv ev) = true) ∧
    (ciContains ed "release" = true →
       uefiShellLink v r ed =
         uefiBaseUrl r ++ "/UEFI-Shell-" ++ uefiShellVersion v ++ "-" ++ uefiTag r
           ++ "-RELEASE.iso") ∧
    (ciContains ed "release" = false →
       uefiShellLink v r ed =
         uefiBaseUrl r ++ "/UEFI-Shell-" ++ uefiShellVersion v ++ "-" ++ uefiTag r
           ++ "-DEBUG.iso") := by
  have hlang : get_languages e st v r ed = (.ok uefiFixedLanguages, st, []) := by
    rw [get_languages, if_pos (by simp [hu])]
  have harch : ∃ archs,
      get_architectures e st v r ed lang = (.ok archs, st, [.uefiXmlCall]) ∧
      archs ≠ [] ∧ (∀ a ∈ archs, a.url = uefiShellLink v r ed) := by
    rw [get_architectures, if_pos (by simp [hu])]
    cases hx : e.uefiXml with
    | ok xml =>
        by_cases hp : (parse_uefi_architectures xml).isEmpty = true
        · refine ⟨[ { name := "x64, ARM64, IA32", url := uefiShellLink v r ed } ], ?_, ?_, ?_⟩
          · simp [get_uefi_shell_architectures, hx, hp]
          · simp
          · intro a ha ; simp at ha ; simp [ha]
        · refine ⟨[ { name := String.intercalate ", " (parse_uefi_architectures xml),
                      url := uefiShellLink v r ed } ], ?_, ?_, ?_⟩
          · simp [get_uefi_shell_architectures, hx, hp]
          · simp
          · intro a ha ; simp at ha ; simp [ha]
    | netErr =>
        refine ⟨[ { name := "x64, ARM64, IA32", url := uefiShellLink v r ed } ], ?_, ?_, ?_⟩
        · simp [get_uefi_shell_architectures, hx]
        · simp
        · intro a ha ; simp at ha ; simp [ha]
    | httpFail =>
        refine ⟨[ { name := "x64, ARM64, IA32", url := uefiShellLink v r ed } ], ?_, ?_, ?_⟩
        · simp [get_uefi_shell_architectures, hx]
        · simp
        · intro a ha ; simp at ha ; simp [ha]
    | bodyErr =>
        refine ⟨[ { name := "x64, ARM64, IA32", url := uefiShellLink v r ed } ], ?_, ?_, ?_⟩
        · simp [get_uefi_shell_architectures, hx]
        · simp
        · intro a ha ; simp at ha ; simp [ha]
  refine ⟨hlang, harch, ?_, ?_, ?_⟩
  · obtain ⟨archs, ha, _, _⟩ := harch
    rw [ha]
    rfl
  · intro hrel
    rw [uefiShellLink, if_pos (by simp [hrel])]
  · intro hrel
    rw [uefiShellLink, if_neg (by simp [hrel])]

/-- Witness for C5 at the catalog's UEFI Shell 2.2 / 25H1 / Release
selection. -/
theorem uefi_fork_no_vendor_calls_witness :
    get_languages envW st0 "UEFI Shell 2.2" "25H1 (edk2-stable202505)" "Release" =
      (.ok uefiFixedLanguages, st0, []) ∧
    (∃ archs,
      get_architectures envW st0 "UEFI Shell 2.2" "25H1 (edk2-stable202505)"
          "Release" "x64" = (.ok archs, st0, [.uefiXmlCall]) ∧
      archs ≠ [] ∧
      (∀ a ∈ archs,
        a.url = uefiShellLink "UEFI Shell 2.2" "25H1 (edk2-stable202505)" "Release")) ∧
    ((get_architectures envW st0 "UEFI Shell 2.2" "25H1 (edk2-stable202505)"
        "Release" "x64").2.2.all (fun ev =>
          !isSkuCallEv ev && !isLinksCallEv ev && !isGenSessionEv ev) = true) ∧
    (ciContains "Release" "release" = true →
       uefiShellLink "UEFI Shell 2.2" "25H1 (edk2-stable202505)" "Release" =
         uefiBaseUrl "25H1 (edk2-stable202505)" ++ "/UEFI-Shell-"
           ++ uefiShellVersion "UEFI Shell 2.2" ++ "-"
           ++ uefiTag "25H1 (edk2-stable202505)" ++ "-RELEASE.iso") ∧
    (ciContains "Release" "release" = false →
       uefiShellLink "UEFI Shell 2.2" "25H1 (edk2-stable202505)" "Release" =
         uefiBaseUrl "25H1 (edk2-stable202505)" ++ "/UEFI-Shell-"
           ++ uefiShellVersion "UEFI Shell 2.2" ++ "-"
           ++ uefiTag "25H1 (edk2-stable202505)" ++ "-DEBUG.iso") :=
  uefi_fork_no_vendor_calls envW st0 "UEFI Shell 2.2" "25H1 (edk2-stable202505)"
    "Release" "x64" (by decide)

/-! ### C4 — retry wrapper semantics; the pipeline does not use it (corrected)

`get_sku_information_with_retry` does behave as the claim describes (at most
3 attempts, success after two failures returns the success result after
backoff sleeps of 2 and 4 seconds, three failures return the last error
without a further sleep), but it is `#[allow(dead_code)]`: `get_languages`
invokes `try_get_sku_information` directly (single attempt, attempt
number 0) and propagates the first failure with no retry and no backoff. -/

/-- One unfolding step of `retryFrom` below the attempt bound. -/
theorem retryFrom_step (op : Nat → Except Failure MicrosoftApiResponse)
    (n : Nat) (h : n < 3) :
    retryFrom op n =
      match op n with
      | .ok r => (.ok r, [])
      | .error f =>
          if n < 2 then
            ((retryFrom op (n + 1)).1, 2 ^ (n + 1) :: (retryFrom op (n + 1)).2)
          else (.error f, []) := by
  rw [retryFrom, dif_pos h]

/-- Environment whose SKU endpoint always fails transiently. -/
def envSkuFail : Env :=
  { envW with sku := fun _ _ => .netErr "conn reset" }

/-- Counterexample for C4 as stated: with the SKU endpoint failing
transiently, language discovery surfaces the first attempt's error
directly, having issued exactly one SKU-endpoint call (the retry wrapper,
which would have issued three attempts with two backoff sleeps, is not
invoked by the pipeline). -/
theorem language_stage_no_retry_cex :
    (get_languages envSkuFail st0 "Windows 11" "24H2" "Home").1 =
      .error (.skuNetwork "conn reset") ∧
    ((get_languages envSkuFail st0 "Windows 11" "24H2" "Home").2.2.filter
        isSkuCallEv).length = 1 :=
  ⟨rfl, rfl⟩

/-- C4 (amended): the retry wrapper makes at most 3 total attempts — two
failures followed by a success return the success result after exactly the
backoff sleeps [2, 4]; three failures return the third attempt's error
unmodified with no further sleep — but the language-discovery stage does not
route the SKU call through it: with an edition found, the first branch's
single failed SKU attempt aborts `get_languages` with that very error after
exactly one SKU-endpoint call. -/
theorem retry_wrapper_semantics_and_direct_call :
    (∀ (op : Nat → Except Failure MicrosoftApiResponse) (f0 f1 : Failure)
       (resp : MicrosoftApiResponse),
       op 0 = .error f0 → op 1 = .error f1 → op 2 = .ok resp →
       get_sku_information_with_retry op = (.ok resp, [2, 4])) ∧
    (∀ (op : Nat → Except Failure MicrosoftApiResponse) (f0 f1 f2 : Failure),
       op 0 = .error f0 → op 1 = .error f1 → op 2 = .error f2 →
       get_sku_information_with_retry op = (.error f2, [2, 4])) ∧
    (∀ (e : Env) (st : IsoApiState) (v r ed : String)
       (eds : List WindowsEdition) (edn : WindowsEdition),
       ciContains v "uefi" = false →
       get_editions v r = .ok eds →
       eds.find? (fun x => ciContains x.name ed) = some edn →
       ∀ eid rest, edn.id = eid :: rest →
       ∀ u, e.whitelist (genUuid st.nextUuid) = .ok u →
       ∀ f, classify_sku (e.sku eid (genUuid st.nextUuid)) = .error f →
       (get_languages e st v r ed).1 = .error f ∧
       ((get_languages e st v r ed).2.2.filter isSkuCallEv).length = 1) := by
  refine ⟨?_, ?_, ?_⟩
  · intro op f0 f1 resp h0 h1 h2
    simp [get_sku_information_with_retry, retryFrom_step op 0 (by omega),
          retryFrom_step op 1 (by omega), retryFrom_step op 2 (by omega), h0, h1, h2]
  · intro op f0 f1 f2 h0 h1 h2
    simp [get_sku_information_with_retry, retryFrom_step op 0 (by omega),
          retryFrom_step op 1 (by omega), retryFrom_step op 2 (by omega), h0, h1, h2]
  · intro e st v r ed eds edn hu heds hfind eid rest hid u hw f hc
    have hlang : get_languages e st v r ed =
        languagesLoop e st edn.id 0 [] := by
      rw [get_languages, if_neg (by simp [hu])]
      simp only [heds, hfind]
    rw [hlang, hid]
    simp only [languagesLoop, hw, hc]
    constructor
    · trivial
    · simp [isSkuCallEv]

/-- Witness for C4's amended statement at concrete attempt oracles and the
concrete failing environment. -/
theorem retry_wrapper_semantics_witness :
    get_sku_information_with_retry
        (fun n => if n < 2 then .error .skuParse else .ok (respSkuW 1)) =
      (.ok (respSkuW 1), [2, 4]) ∧
    get_sku_information_with_retry (fun _ => .error .skuParse) =
      (.error .skuParse, [2, 4]) ∧
    (get_languages envSkuFail st0 "Windows 11" "24H2" "Home").1 =
      .error (.skuNetwork "conn reset") ∧
    ((get_languages envSkuFail st0 "Windows 11" "24H2" "Home").2.2.filter
        isSkuCallEv).length = 1 := by
  refine ⟨?_, ?_, ?_⟩
  · exact retry_wrapper_semantics_and_direct_call.1
      (fun n => if n < 2 then .error .skuParse else .ok (respSkuW 1))
      .skuParse .skuParse (respSkuW 1) rfl rfl rfl
  · exact retry_wrapper_semantics_and_direct_call.2.1
      (fun _ => .error .skuParse) .skuParse .skuParse .skuParse rfl rfl rfl
  · exact retry_wrapper_semantics_and_direct_call.2.2 envSkuFail st0
      "Windows 11" "24H2" "Home"
      [ { name := "Windows 11 Home/Pro/Edu", id := [3113, 3131] },
        { name := "Windows 11 Home China ", id := [3115, 3132] },
        { name := "Windows 11 Pro China ", id := [3114, 3133] } ]
      { name := "Windows 11 Home/Pro/Edu", id := [3113, 3131] }
      (by decide) rfl (by decide) 3113 [3131] rfl () rfl
      (.skuNetwork "conn reset") rfl

/-! ### C2 — whitelist failure is fatal in this code (corrected)

The claim says a failed whitelisting call is recorded as a soft warning and
the run proceeds. In this source, `get_languages` line 162 applies `?` to
`whitelist_session`, so the error propagates and language discovery aborts
before any SKU call. -/

/-- Environment whose session-gateway endpoint always fails. -/
def envWlFail : Env :=
  { envW with whitelist := fun _ => .error "gateway down" }

/-- Counterexample for C2 as stated: with the gateway failing, language
discovery returns the whitelist failure as its result (it does not proceed),
the trace stops right after the whitelist call, and no SKU call is ever
issued. -/
theorem whitelist_failure_aborts_cex :
    (get_languages envWlFail st0 "Windows 11" "24H2" "Home").1 =
      .error (.whitelistFailed "Session whitelisting failed: gateway down") ∧
    (get_languages envWlFail st0 "Windows 11" "24H2" "Home").2.2 =
      [.genSession 0 (genUuid 0), .whitelistCall (genUuid 0)] ∧
    ((get_languages envWlFail st0 "Windows 11" "24H2" "Home").2.2.filter
        isSkuCallEv).length = 0 :=
  ⟨rfl, rfl, rfl⟩

/-- C2 (amended): when the session-whitelisting call for the first funnel
branch fails, the pipeline does not proceed: `get_languages` aborts with
that whitelist failure (wrapped in the source's message prefix) and issues
no SKU-endpoint call at all. -/
theorem whitelist_failure_propagates (e : Env) (st : IsoApiState)
    (v r ed : String) (eds : List WindowsEdition) (edn : WindowsEdition)
    (hu : ciContains v "uefi" = false)
    (heds : get_editions v r = .ok eds)
    (hfind : eds.find? (fun x => ciContains x.name ed) = some edn)
    (eid : Nat) (rest : List Nat) (hid : edn.id = eid :: rest)
    (m : String) (hwl : e.whitelist (genUuid st.nextUuid) = .error m) :
    (get_languages e st v r ed).1 =
      .error (.whitelistFailed ("Session whitelisting failed: " ++ m)) ∧
    ((get_languages e st v r ed).2.2.filter isSkuCallEv).length = 0 := by
  have hlang : get_languages e st v r ed = languagesLoop e st edn.id 0 [] := by
    rw [get_languages, if_neg (by simp [hu])]
    simp only [heds, hfind]
  rw [hlang, hid]
  simp only [languagesLoop, hwl]
  exact ⟨by trivial, by simp [isSkuCallEv]⟩

/-- Witness for C2's amended statement at the concrete failing gateway. -/
theorem whitelist_failure_propagates_witness :
    (get_languages envWlFail st0 "Windows 11" "24H2" "Home").1 =
      .error (.whitelistFailed "Session whitelisting failed: gateway down") ∧
    ((get_languages envWlFail st0 "Windows 11" "24H2" "Home").2.2.filter
        isSkuCallEv).length = 0 :=
  whitelist_failure_propagates envWlFail st0 "Windows 11" "24H2" "Home"
    [ { name := "Windows 11 Home/Pro/Edu", id := [3113, 3131] },
      { name := "Windows 11 Home China ", id := [3115, 3132] },
      { name := "Windows 11 Pro China ", id := [3114, 3133] } ]
    { name := "Windows 11 Home/Pro/Edu", id := [3113, 3131] }
    (by decide) rfl (by decide) 3113 [3131] rfl "gateway down" rfl

/-! ### C3 — error classification order; ban sentinel only on links (corrected)

The claim asserts ban-sentinel handling on both endpoints. Only
`get_download_links` (line 478) checks `errors[0].Type == 9`;
`try_get_sku_information` (line 411) returns a plain API error for any
non-empty legacy list, ban sentinel included. -/

/-- A response whose legacy error list starts with the ban sentinel. -/
def respBan : MicrosoftApiResponse :=
  { skus := none, product_download_options := none,
    errors := some [ { error_type := 9, value := "oops" } ],
    validation_container := none, tickets := none }

/-- A response whose legacy error list starts with an ordinary error. -/
def respErr5 : MicrosoftApiResponse :=
  { skus := none, product_download_options := none,
    errors := some [ { error_type := 5, value := "bad edition" } ],
    validation_container := none, tickets := none }

/-- A response with a non-empty structured validation-error container. -/
def respVal : MicrosoftApiResponse :=
  { skus := none, product_download_options := none,
    errors := some [ { error_type := 9, value := "oops" } ],
    validation_container := some { error_list := [], errors := ["srv fault"] },
    tickets := none }

/-- Environment whose SKU endpoint answers with the ban-sentinel response. -/
def envSkuBan : Env :=
  { envW with sku := fun _ _ => .ok respBan }

/-- Counterexample for C3 as stated: a SKU-endpoint response whose first
legacy error entry carries the ban sentinel (type 9) is classified by the
pipeline as a plain API error carrying the entry's value, not as Blocked. -/
theorem sku_ban_sentinel_not_blocked_cex :
    (get_languages envSkuBan st0 "Windows 11" "24H2" "Home").1 =
      .error (.legacyApiError "oops") ∧
    ∀ msg, (get_languages envSkuBan st0 "Windows 11" "24H2" "Home").1 ≠
      .error (.blocked msg) := by
  refine ⟨rfl, ?_⟩
  intro msg h
  rw [show (get_languages envSkuBan st0 "Windows 11" "24H2" "Home").1 =
      .error (.legacyApiError "oops") from rfl] at h
  exact Failure.noConfusion (Except.error.inj h)

/-- C3 (amended): for both endpoints a non-empty structured
validation-error container takes precedence and yields an ApiError; with the
validation container clear, a non-empty legacy error list is classified as
follows — on the SKU endpoint it always yields an ApiError carrying the
first entry's value verbatim (no ban special case), while on the
download-links endpoint a first entry whose type code equals the ban
sentinel 9 yields Blocked whose message ends with the session id, and any
other first entry yields an ApiError carrying its value verbatim. -/
theorem error_classification_order (resp : MicrosoftApiResponse)
    (e : Env) (sid : String) :
    (∀ vc, resp.validation_container = some vc → vc.errors ≠ [] →
       classify_sku (.ok resp) = .error (.validationApiError (vc.errors.headD "")) ∧
       classify_links e sid (.ok resp) =
         .error (.validationApiError (vc.errors.headD ""))) ∧
    ((∀ vc, resp.validation_container = some vc → vc.errors = []) →
       ∀ err rest, resp.errors = some (err :: rest) →
       classify_sku (.ok resp) = .error (.legacyApiError err.value) ∧
       (err.error_type = 9 →
          classify_links e sid (.ok resp) =
            .error (.blocked (e.banMessage ++ " " ++ sid)) ∧
          ∃ p, e.banMessage ++ " " ++ sid = p ++ sid) ∧
       (err.error_type ≠ 9 →
          classify_links e sid (.ok resp) = .error (.legacyApiError err.value))) := by
  constructor
  · intro vc hvc hne
    have hemp : vc.errors.isEmpty = false := by
      cases herr : vc.errors with
      | nil => exact absurd herr hne
      | cons a l => rfl
    constructor
    · simp [classify_sku, hvc, hemp]
    · simp [classify_links, hvc, hemp]
  · intro hclear err rest herr
    have hleg_sku : classify_sku (.ok resp) = skuLegacy resp := by
      cases hvc : resp.validation_container with
      | none => simp [classify_sku, hvc]
      | some vc =>
          have : vc.errors = [] := hclear vc hvc
          simp [classify_sku, hvc, this]
    have hleg_links : classify_links e sid (.ok resp) = linksLegacy e sid resp := by
      cases hvc : resp.validation_container with
      | none => simp [classify_links, hvc]
      | some vc =>
          have : vc.errors = [] := hclear vc hvc
          simp [classify_links, hvc, this]
    refine ⟨?_, ?_, ?_⟩
    · rw [hleg_sku]
      simp [skuLegacy, herr]
    · intro h9
      rw [hleg_links]
      refine ⟨by simp [linksLegacy, herr, h9], e.banMessage ++ " ", by simp [String.append_assoc]⟩
    · intro h9
      rw [hleg_links]
      simp [linksLegacy, herr]
      intro hc
      exact absurd hc h9

/-- Witness for C3's amended statement at concrete responses: a non-empty
validation container wins on both endpoints; a ban-sentinel legacy entry is
an ApiError on the SKU endpoint but Blocked (with the session id appended)
on the download-links endpoint; an ordinary legacy entry is an ApiError
verbatim on both. -/
theorem error_classification_order_witness :
    (classify_sku (.ok respVal) = .error (.validationApiError "srv fault") ∧
     classify_links envW "sid-1" (.ok respVal) =
       .error (.validationApiError "srv fault")) ∧
    classify_sku (.ok respBan) = .error (.legacyApiError "oops") ∧
    classify_links envW "sid-1" (.ok respBan) = .error (.blocked "BAN sid-1") ∧
    classify_links envW "sid-1" (.ok respErr5) =
      .error (.legacyApiError "bad edition") := by
  refine ⟨(error_classification_order respVal envW "sid-1").1
      { error_list := [], errors := ["srv fault"] } rfl (by decide), ?_, ?_, ?_⟩
  · exact ((error_classification_order respBan envW "sid-1").2 (by intro vc h ; cases h)
      { error_type := 9, value := "oops" } [] rfl).1
  · exact (((error_classification_order respBan envW "sid-1").2 (by intro vc h ; cases h)
      { error_type := 9, value := "oops" } [] rfl).2.1 rfl).1
  · exact ((error_classification_order respErr5 envW "sid-1").2 (by intro vc h ; cases h)
      { error_type := 5, value := "bad edition" } [] rfl).2.2 (by decide)

/-! ### C1 — branch-scoped session discipline -/

/-- C1: on the OS (non-UEFI) path, a successful run of `get_architectures`
started from a fresh session map has the trace
`branchEvents ++ linksEvents`: per funnel branch `i`, exactly one session id
`genUuid (base + i)` is generated and stored, immediately whitelisted, and
then presented to that branch's SKU call; after all branches, the
download-links segment consists solely of `linksCall` events (no session
generation or whitelisting in between), each presenting exactly the stored
session id `genUuid (base + sessionIndex)` of the entry's branch (as the
final state's map equation shows); distinct branches carry distinct session
ids because `genUuid` is injective. -/
theorem funnel_branch_session_discipline (e : Env) (st : IsoApiState)
    (v r ed lang : String)
    (hfresh : ∀ i, st.sessionIds i = none)
    (hos : ciContains v "uefi" = false)
    (archs : List WindowsArchitecture) (st2 : IsoApiState) (tr : List Event)
    (hrun : get_architectures e st v r ed lang = (.ok archs, st2, tr)) :
    ∃ ids entries,
      tr = branchEvents st.nextUuid 0 ids ++ linksEvents st.nextUuid entries ∧
      (∀ i, st2.sessionIds i =
        if i < ids.length then some (genUuid (st.nextUuid + i)) else none) ∧
      (∀ en ∈ entries, en.session_index < ids.length) ∧
      (∀ m n : Nat, genUuid m = genUuid n → m = n) := by
  rw [get_architectures, if_neg (by simp [hos])] at hrun
  rcases hL : get_languages e st v r ed with ⟨res, stL, trL⟩
  rw [hL] at hrun
  cases res with
  | error f =>
      simp only [Prod.mk.injEq] at hrun
      exact absurd hrun.1 (by simp)
  | ok ls =>
      simp only at hrun
      cases hfind : ls.find? (fun l =>
          ciContains l.name lang || ciContains l.display_name lang) with
      | none =>
          simp only [hfind, Prod.mk.injEq] at hrun
          exact absurd hrun.1 (by simp)
      | some l0 =>
          simp only [hfind] at hrun
          rcases hA : archLoop e stL.sessionIds l0.data [] with ⟨resA, trA⟩
          rw [hA] at hrun
          simp only [Prod.mk.injEq] at hrun
          obtain ⟨hres, hst, htr⟩ := hrun
          obtain ⟨eds, edn, heds, hfed, hloop⟩ :=
            get_languages_ok_decomp e st v r ed ls stL trL hos hL
          obtain ⟨htrL, hnu, hsess, hls⟩ := languagesLoop_ok e edn.id st 0 [] ls stL trL hloop
          have hsess2 : ∀ i, stL.sessionIds i =
              if i < edn.id.length then some (genUuid (st.nextUuid + i)) else none := by
            intro i
            rw [hsess i]
            by_cases hi : i < edn.id.length
            · rw [if_pos (by omega), if_pos hi]
              exact congrArg (fun n => some (genUuid n)) (by omega)
            · rw [if_neg (by omega), if_neg hi, hfresh i]
          have hmem : l0 ∈ ls := List.mem_of_find?_eq_some hfind
          have hdata : l0.data =
              ((branchPairs e st.nextUuid 0 edn.id).filter
                (fun p => p.2.language == l0.name)).map
                (fun p => ({ session_index := p.1, sku_id := p.2.id } : LanguageData)) := by
            have := groupPairs_data_char (branchPairs e st.nextUuid 0 edn.id) l0
              (by rw [groupPairs, ← hls] ; exact hmem)
            exact this
          have hbound : ∀ en ∈ l0.data, en.session_index < edn.id.length := by
            intro en hen
            rw [hdata] at hen
            obtain ⟨p, hp, hpe⟩ := List.mem_map.mp hen
            have hpmem : p ∈ branchPairs e st.nextUuid 0 edn.id :=
              List.mem_of_mem_filter hp
            have := branchPairs_fst_bound e edn.id st.nextUuid 0 p hpmem
            have hpe2 : en.session_index = p.1 := by rw [← hpe]
            rw [hpe2]
            omega
          have htrA : trA = linksEvents st.nextUuid l0.data := by
            refine archLoop_ok_trace e stL.sessionIds
              (fun i => genUuid (st.nextUuid + i)) l0.data [] resA trA ?_ hA ?_
            · intro en hen
              rw [hsess2 en.session_index, if_pos (hbound en hen)]
            · exact ⟨archs, hres⟩
          refine ⟨edn.id, l0.data, ?_, ?_, hbound, genUuid_inj⟩
          · rw [← htr, htrL, htrA]
          · intro i
            rw [← hst]
            exact hsess2 i

/-- Witness for C1 at a healthy environment with a two-branch edition
(Windows 11 Home/Pro/Edu, edition ids 3113 and 3131, both answering the
language "English"). -/
theorem funnel_branch_session_discipline_witness :
    ∃ archs st2 tr,
      get_architectures envW st0 "Windows 11" "24H2" "Home" "English" =
        (.ok archs, st2, tr) ∧
      ∃ ids entries,
        tr = branchEvents st0.nextUuid 0 ids ++ linksEvents st0.nextUuid entries ∧
        (∀ i, st2.sessionIds i =
          if i < ids.length then some (genUuid (st0.nextUuid + i)) else none) ∧
        (∀ en ∈ entries, en.session_index < ids.length) ∧
        (∀ m n : Nat, genUuid m = genUuid n → m = n) := by
  refine ⟨_, _, _, rfl, ?_⟩
  exact funnel_branch_session_discipline envW st0 "Windows 11" "24H2" "Home" "English"
    (fun i => rfl) (by decide) _ _ _ rfl

/-! ### C9 — grouping of Skus by language across branches -/

/-- C9: on the OS path, a successful `get_languages` result is exactly the
grouping of the flattened `(branch index, Sku)` pairs of all funnel
branches by language name: every language name appears in at most one
returned record (the names are pairwise distinct), and each record's data
list is the ordered projection of every contributing pair carrying that
language — duplicate languages across branches append `(branchIndex, skuId)`
entries rather than replacing them. -/
theorem language_grouping_across_branches (e : Env) (st : IsoApiState)
    (v r ed : String)
    (hu : ciContains v "uefi" = false)
    (ls : List WindowsLanguage) (st2 : IsoApiState) (tr : List Event)
    (h : get_languages e st v r ed = (.ok ls, st2, tr)) :
    ∃ ids,
      (∃ eds edn, get_editions v r = .ok eds ∧
         eds.find? (fun x => ciContains x.name ed) = some edn ∧ edn.id = ids) ∧
      ls = groupPairs (branchPairs e st.nextUuid 0 ids) ∧
      (ls.map (fun l => l.name)).Nodup ∧
      (∀ l ∈ ls, l.data =
        ((branchPairs e st.nextUuid 0 ids).filter
          (fun p => p.2.language == l.name)).map
          (fun p => ({ session_index := p.1, sku_id := p.2.id } : LanguageData))) := by
  obtain ⟨eds, edn, heds, hfed, hloop⟩ := get_languages_ok_decomp e st v r ed ls st2 tr hu h
  obtain ⟨_, _, _, hls⟩ := languagesLoop_ok e edn.id st 0 [] ls st2 tr hloop
  have hgp : ls = groupPairs (branchPairs e st.nextUuid 0 edn.id) := by
    rw [hls] ; rfl
  refine ⟨edn.id, ⟨eds, edn, heds, hfed, rfl⟩, hgp, ?_, ?_⟩
  · rw [hgp] ; exact groupPairs_namesNodup _
  · intro l hl
    exact groupPairs_data_char _ l (by rw [← hgp] ; exact hl)

/-- Witness for C9: both branches of the Windows 11 Home/Pro/Edu edition
surface the language "English", and the result merges them into one record
accumulating both branches' `(branchIndex, skuId)` entries in order. -/
theorem language_grouping_across_branches_witness :
    (∃ ls st2 tr,
      get_languages envW st0 "Windows 11" "24H2" "Home" = (.ok ls, st2, tr) ∧
      ∃ ids,
        (∃ eds edn, get_editions "Windows 11" "24H2" = .ok eds ∧
           eds.find? (fun x => ciContains x.name "Home") = some edn ∧ edn.id = ids) ∧
        ls = groupPairs (branchPairs envW st0.nextUuid 0 ids) ∧
        (ls.map (fun l => l.name)).Nodup ∧
        (∀ l ∈ ls, l.data =
          ((branchPairs envW st0.nextUuid 0 ids).filter
            (fun p => p.2.language == l.name)).map
            (fun p => ({ session_index := p.1, sku_id := p.2.id } : LanguageData)))) ∧
    (get_languages envW st0 "Windows 11" "24H2" "Home").1 =
      .ok [ { name := "English", display_name := "English (US)",
              data := [ { session_index := 0, sku_id := "3113" },
                        { session_index := 1, sku_id := "3131" } ] } ] := by
  constructor
  · refine ⟨_, _, _, rfl, ?_⟩
    exact language_grouping_across_branches envW st0 "Windows 11" "24H2" "Home"
      (by decide) _ _ _ rfl
  · rfl

/-! ### C10 — language matching also consults the localized display name -/

theorem find?_or_of_left_false (p q : WindowsLanguage → Bool) :
    ∀ ls : List WindowsLanguage, (∀ l ∈ ls, p l = false) →
      ls.find? (fun l => p l || q l) = ls.find? q := by
  intro ls
  induction ls with
  | nil => intro _ ; rfl
  | cons a l ih =>
      intro h
      have ha : p a = false := h a (by simp)
      simp only [List.find?_cons, ha, Bool.false_or]
      cases hq : q a with
      | true => simp only [hq]
      | false =>
          simp only [hq]
          exact ih (fun x hx => h x (by simp [hx]))

/-- C10: in architecture discovery the requested language is matched by
case-insensitive substring against the language's short name or its
localized display name; when no short name matches at all, the first
display-name match is still selected (its download-links loop runs on that
record's data), even though it matches only through the display name. -/
theorem architecture_language_display_match (e : Env) (st : IsoApiState)
    (v r ed q : String)
    (hu : ciContains v "uefi" = false)
    (ls : List WindowsLanguage) (stL : IsoApiState) (trL : List Event)
    (hL : get_languages e st v r ed = (.ok ls, stL, trL))
    (hname : ∀ l ∈ ls, ciContains l.name q = false)
    (l0 : WindowsLanguage)
    (hdisp : ls.find? (fun l => ciContains l.display_name q) = some l0) :
    ciContains l0.name q = false ∧
    get_architectures e st v r ed q =
      ((archLoop e stL.sessionIds l0.data []).1, stL,
        trL ++ (archLoop e stL.sessionIds l0.data []).2) := by
  have hmem : l0 ∈ ls := List.mem_of_find?_eq_some hdisp
  refine ⟨hname l0 hmem, ?_⟩
  rw [get_architectures, if_neg (by simp [hu]), hL]
  simp only
  rw [find?_or_of_left_false (fun l => ciContains l.name q)
    (fun l => ciContains l.display_name q) ls hname, hdisp]

/-- Witness for C10: the query "english (us)" is not a substring of the
short name "en-US"-style name "English" of the discovered record, but is a
substring of its display name "English (US)", and the record is still
selected. -/
theorem architecture_language_display_match_witness :
    ∃ ls stL trL,
      get_languages envW st0 "Windows 11" "24H2" "Home" = (.ok ls, stL, trL) ∧
      ∃ l0, ls.find? (fun l => ciContains l.display_name "english (us)") = some l0 ∧
        ciContains l0.name "english (us)" = false ∧
        get_architectures envW st0 "Windows 11" "24H2" "Home" "english (us)" =
          ((archLoop envW stL.sessionIds l0.data []).1, stL,
            trL ++ (archLoop envW stL.sessionIds l0.data []).2) := by
  refine ⟨_, _, _, rfl, ?_⟩
  have h := architecture_language_display_match envW st0 "Windows 11" "24H2" "Home"
    "english (us)" (by decide) _ _ _ rfl (by decide) _ rfl
  exact ⟨_, rfl, h.1, h.2⟩

end Ferro
